import Mathlib

/-!
Verification of the sound2osc core against its specification.

The definitions below are shallow embeddings of the C++ sources:
* `TriggerFilter` — the on-delay / off-delay / max-hold timing state machine
  of `TriggerFilter.cpp` (`triggerOn`, `triggerOff`, `sendOnSignal`,
  `sendOffSignal`, `onOnDelayEnd`, `onMaxHoldEnd`, `onOffDelayEnd`).
* `Json` and the engine state — `Sound2OscEngine::toState` / `fromState`.
* `PresetManager.savePresetFileDoc` — the metadata injection performed by
  `PresetManager::savePresetFile`.
* `MonoAudioBuffer` — the audio ring buffer (implementation not part of
  the core sources; modelled from the spec).
* The engine timer intervals of `Sound2OscEngine::connectComponents`.
-/

namespace Sound2Osc

/-! ## TriggerFilter state machine (TriggerFilter.cpp)

The C++ object owns a boolean output flag `m_outputIsActive` and three
single-shot `QTimer`s (`m_onDelayTimer`, `m_maxHoldTimer`,
`m_offDelayTimer`).  A single-shot timer is either running ("active") or
not; it fires only while running, and clears its running flag when it
fires.  The state is therefore four booleans. -/

structure TriggerFilterState where
  outputIsActive : Bool
  onDelayActive : Bool
  maxHoldActive : Bool
  offDelayActive : Bool
deriving DecidableEq, Repr

/-- The state of a freshly constructed `TriggerFilter`: output inactive,
no timer running. -/
def TriggerFilterState.start : TriggerFilterState :=
  ⟨false, false, false, false⟩

/-- Configuration of a `TriggerFilter`: the three durations (seconds, as
set by `setOnDelay` / `setOffDelay` / `setMaxHold`), the mute flag, and
the two OSC message strings held by `TriggerOscParameters`. -/
structure TriggerFilterCfg where
  onDelay : ℚ
  offDelay : ℚ
  maxHold : ℚ
  mute : Bool
  onMessage : String
  offMessage : String
deriving DecidableEq, Repr

/-- The events that can reach a `TriggerFilter`: the two public calls and
the three timer timeouts. -/
inductive FilterEvent where
  | triggerOn
  | triggerOff
  | onDelayEnd
  | maxHoldEnd
  | offDelayEnd
deriving DecidableEq, Repr

/-- The non-wire notification signals `onSignalSent` / `offSignalSent`. -/
inductive Sig where
  | onSignal
  | offSignal
deriving DecidableEq, Repr

/-- Outcome of handling one event: the successor state, the notification
signals emitted, and the messages passed to `OSCNetworkManager::sendMessage`
(the wire). -/
structure StepOut where
  state : TriggerFilterState
  sigs : List Sig
  wire : List String
deriving DecidableEq, Repr

namespace TriggerFilter

/-- Embedding of `TriggerFilter::triggerOn`: stop the off-delay timer;
return if the output is active or the on-delay timer is running;
otherwise start the on-delay timer. -/
def triggerOn (s : TriggerFilterState) : TriggerFilterState :=
  let s1 : TriggerFilterState := { s with offDelayActive := false }
  if s1.outputIsActive then s1
  else if s1.onDelayActive then s1
  else { s1 with onDelayActive := true }

/-- Embedding of `TriggerFilter::triggerOff`: stop the on-delay timer;
return if the output is not active or the off-delay timer is running;
otherwise start the off-delay timer. -/
def triggerOff (s : TriggerFilterState) : TriggerFilterState :=
  let s1 : TriggerFilterState := { s with onDelayActive := false }
  if !s1.outputIsActive then s1
  else if s1.offDelayActive then s1
  else { s1 with offDelayActive := true }

/-- Embedding of `TriggerFilter::sendOnSignal`: the wire message is sent
only when the configured on-message is non-empty and the filter is not
muted; the `onSignalSent` notification is always emitted. -/
def sendOnSignal (cfg : TriggerFilterCfg) : List Sig × List String :=
  ([Sig.onSignal], if cfg.onMessage ≠ "" ∧ cfg.mute = false then [cfg.onMessage] else [])

/-- Embedding of `TriggerFilter::sendOffSignal`. -/
def sendOffSignal (cfg : TriggerFilterCfg) : List Sig × List String :=
  ([Sig.offSignal], if cfg.offMessage ≠ "" ∧ cfg.mute = false then [cfg.offMessage] else [])

/-- Embedding of `TriggerFilter::onOnDelayEnd` (the on-delay timer fired,
so its running flag clears): activate the output, send the on signal, and
start the max-hold timer when `maxHold > 0`. -/
def onOnDelayEnd (cfg : TriggerFilterCfg) (s : TriggerFilterState) : StepOut :=
  let e := sendOnSignal cfg
  ⟨{ s with outputIsActive := true, onDelayActive := false,
            maxHoldActive :=
              if 0 < cfg.maxHold then true else s.maxHoldActive }, e.1, e.2⟩

/-- Embedding of `TriggerFilter::onMaxHoldEnd`: deactivate the output,
send the off signal, stop the off-delay timer. -/
def onMaxHoldEnd (cfg : TriggerFilterCfg) (s : TriggerFilterState) : StepOut :=
  let e := sendOffSignal cfg
  ⟨{ s with outputIsActive := false, maxHoldActive := false,
            offDelayActive := false }, e.1, e.2⟩

/-- Embedding of `TriggerFilter::onOffDelayEnd`: deactivate the output,
send the off signal, stop the max-hold timer. -/
def onOffDelayEnd (cfg : TriggerFilterCfg) (s : TriggerFilterState) : StepOut :=
  let e := sendOffSignal cfg
  ⟨{ s with outputIsActive := false, offDelayActive := false,
            maxHoldActive := false }, e.1, e.2⟩

/-- One event step.  A timer timeout slot runs only when the corresponding
single-shot timer is running; otherwise the event is a no-op (a stopped
`QTimer` does not fire). -/
def step (cfg : TriggerFilterCfg) (s : TriggerFilterState) : FilterEvent → StepOut
  | .triggerOn => ⟨triggerOn s, [], []⟩
  | .triggerOff => ⟨triggerOff s, [], []⟩
  | .onDelayEnd => if s.onDelayActive then onOnDelayEnd cfg s else ⟨s, [], []⟩
  | .maxHoldEnd => if s.maxHoldActive then onMaxHoldEnd cfg s else ⟨s, [], []⟩
  | .offDelayEnd => if s.offDelayActive then onOffDelayEnd cfg s else ⟨s, [], []⟩

/-- Run a sequence of events, accumulating the emitted signals and wire
messages in order. -/
def runFrom (cfg : TriggerFilterCfg) (s : TriggerFilterState) :
    List FilterEvent → StepOut
  | [] => ⟨s, [], []⟩
  | e :: es =>
    let o := step cfg s e
    let r := runFrom cfg o.state es
    ⟨r.state, o.sigs ++ r.sigs, o.wire ++ r.wire⟩

/-- State invariant maintained by every reachable `TriggerFilter` state:
the on-delay timer runs only while the output is inactive, and the
max-hold and off-delay timers run only while it is active.  These are
exactly the facts backing the `Q_ASSERT`s in the timeout slots. -/
def Inv (s : TriggerFilterState) : Prop :=
  (s.onDelayActive = true → s.outputIsActive = false) ∧
  (s.maxHoldActive = true → s.outputIsActive = true) ∧
  (s.offDelayActive = true → s.outputIsActive = true)

instance (s : TriggerFilterState) : Decidable (Inv s) := by
  unfold Inv; infer_instance

theorem start_inv : Inv TriggerFilterState.start := by decide

theorem step_inv (cfg : TriggerFilterCfg) (s : TriggerFilterState)
    (e : FilterEvent) (h : Inv s) : Inv (step cfg s e).state := by
  obtain ⟨h1, h2, h3⟩ := h
  obtain ⟨a, o, m, f⟩ := s
  cases e <;> cases a <;> cases o <;> cases m <;> cases f <;>
    simp_all [step, triggerOn, triggerOff, onOnDelayEnd, onMaxHoldEnd,
      onOffDelayEnd, sendOnSignal, sendOffSignal, Inv]

/-- Signals alternate: `altFrom b l` holds when, reading `l` left to
right starting with the output-active flag `b`, each signal is an
on-signal exactly when the output was inactive, flipping the flag. -/
def altFrom : Bool → List Sig → Bool
  | _, [] => true
  | b, x :: rest =>
    (x = if b then Sig.offSignal else Sig.onSignal) && altFrom (!b) rest

theorem altFrom_append (b : Bool) (l1 l2 : List Sig) :
    altFrom b (l1 ++ l2) =
      (altFrom b l1 && altFrom (if l1.length % 2 = 0 then b else !b) l2) := by
  induction l1 generalizing b with
  | nil => simp [altFrom]
  | cons x rest ih =>
    simp only [List.cons_append, altFrom, List.length_cons, List.append_eq]
    rw [ih (!b)]
    rcases Nat.even_or_odd rest.length with h | h
    · have h0 : rest.length % 2 = 0 := Nat.even_iff.mp h
      have h1 : (rest.length + 1) % 2 = 1 := by omega
      simp [h0, h1, Bool.and_assoc]
    · have h0 : rest.length % 2 = 1 := Nat.odd_iff.mp h
      have h1 : (rest.length + 1) % 2 = 0 := by omega
      simp [h0, h1, Bool.and_assoc]

/-- Per-step emission shape: each event emits no signal (state's active
flag unchanged) or exactly one signal that flips the active flag in the
expected direction. -/
theorem step_sigs (cfg : TriggerFilterCfg) (s : TriggerFilterState)
    (e : FilterEvent) (h : Inv s) :
    ((step cfg s e).sigs = [] ∧
      (step cfg s e).state.outputIsActive = s.outputIsActive) ∨
    ((step cfg s e).sigs = [if s.outputIsActive then Sig.offSignal else Sig.onSignal] ∧
      (step cfg s e).state.outputIsActive = !s.outputIsActive) := by
  obtain ⟨h1, h2, h3⟩ := h
  obtain ⟨a, o, m, f⟩ := s
  cases e <;> cases a <;> cases o <;> cases m <;> cases f <;>
    simp_all [step, triggerOn, triggerOff, onOnDelayEnd, onMaxHoldEnd,
      onOffDelayEnd, sendOnSignal, sendOffSignal]

theorem runFrom_alt (cfg : TriggerFilterCfg) (tr : List FilterEvent)
    (s : TriggerFilterState) (h : Inv s) :
    altFrom s.outputIsActive (runFrom cfg s tr).sigs = true ∧
    (runFrom cfg s tr).state.outputIsActive =
      (if (runFrom cfg s tr).sigs.length % 2 = 0 then s.outputIsActive
       else !s.outputIsActive) := by
  induction tr generalizing s with
  | nil => simp [runFrom, altFrom]
  | cons e es ih =>
    have hinv := step_inv cfg s e h
    have hrec := ih (step cfg s e).state hinv
    rcases step_sigs cfg s e h with ⟨hs, ha⟩ | ⟨hs, ha⟩
    · simp only [runFrom, hs, List.nil_append]
      refine ⟨by rw [ha] at hrec; exact hrec.1, ?_⟩
      rw [hrec.2, ha]
    · simp only [runFrom, hs, List.singleton_append, List.length_cons]
      constructor
      · rw [ha] at hrec
        simp [altFrom, hrec.1]
      · rw [hrec.2, ha]
        rcases Nat.even_or_odd (runFrom cfg (step cfg s e).state es).sigs.length with hp | hp
        · have h0 : (runFrom cfg (step cfg s e).state es).sigs.length % 2 = 0 :=
            Nat.even_iff.mp hp
          have h1 : ((runFrom cfg (step cfg s e).state es).sigs.length + 1) % 2 = 1 := by
            omega
          simp [h0, h1]
        · have h0 : (runFrom cfg (step cfg s e).state es).sigs.length % 2 = 1 :=
            Nat.odd_iff.mp hp
          have h1 : ((runFrom cfg (step cfg s e).state es).sigs.length + 1) % 2 = 0 := by
            omega
          simp [h0, h1]

/-- Counting consequence of alternation: the two signal counts are
balanced to within one, in the direction fixed by the starting flag. -/
theorem altFrom_count (l : List Sig) : ∀ b, altFrom b l = true →
    if b then
      l.count Sig.onSignal ≤ l.count Sig.offSignal ∧
        l.count Sig.offSignal ≤ l.count Sig.onSignal + 1
    else
      l.count Sig.offSignal ≤ l.count Sig.onSignal ∧
        l.count Sig.onSignal ≤ l.count Sig.offSignal + 1 := by
  induction l with
  | nil => intro b _; cases b <;> simp
  | cons x rest ih =>
    intro b h
    simp only [altFrom, Bool.and_eq_true, decide_eq_true_eq] at h
    obtain ⟨hx, hrest⟩ := h
    have hr := ih (!b) hrest
    cases b <;> simp_all [List.count_cons]

/-- Step functions under a muted configuration: the state and the
notification signals agree with the unmuted run, and nothing reaches the
wire. -/
theorem step_mute (cfg : TriggerFilterCfg) (s : TriggerFilterState)
    (e : FilterEvent) :
    (step { cfg with mute := true } s e).state =
        (step { cfg with mute := false } s e).state ∧
    (step { cfg with mute := true } s e).sigs =
        (step { cfg with mute := false } s e).sigs ∧
    (step { cfg with mute := true } s e).wire = [] := by
  obtain ⟨a, o, m, f⟩ := s
  cases e <;> cases a <;> cases o <;> cases m <;> cases f <;>
    simp [step, triggerOn, triggerOff, onOnDelayEnd, onMaxHoldEnd,
      onOffDelayEnd, sendOnSignal, sendOffSignal]

theorem runFrom_mute (cfg : TriggerFilterCfg) (tr : List FilterEvent) :
    ∀ s : TriggerFilterState,
    (runFrom { cfg with mute := true } s tr).state =
        (runFrom { cfg with mute := false } s tr).state ∧
    (runFrom { cfg with mute := true } s tr).sigs =
        (runFrom { cfg with mute := false } s tr).sigs ∧
    (runFrom { cfg with mute := true } s tr).wire = [] := by
  induction tr with
  | nil => intro s; exact ⟨rfl, rfl, rfl⟩
  | cons e es ih =>
    intro s
    obtain ⟨hst, hsig, hwire⟩ := step_mute cfg s e
    obtain ⟨ist, isig, iwire⟩ := ih (step { cfg with mute := true } s e).state
    rw [hst] at ist isig iwire
    simp [runFrom, hst, hsig, hwire, ist, isig, iwire]

/-- When `maxHold` is not positive, the max-hold timer is never started,
so it stays stopped along every run. -/
theorem runFrom_no_maxHold (cfg : TriggerFilterCfg)
    (hm : ¬ 0 < cfg.maxHold) (tr : List FilterEvent) :
    ∀ s : TriggerFilterState, s.maxHoldActive = false →
      (runFrom cfg s tr).state.maxHoldActive = false := by
  induction tr with
  | nil => intro s h; simpa [runFrom] using h
  | cons e es ih =>
    intro s h
    apply ih
    obtain ⟨a, o, m, f⟩ := s
    simp only [TriggerFilterState.maxHoldActive] at h
    subst h
    cases e <;> cases a <;> cases o <;> cases f <;>
      simp_all [step, triggerOn, triggerOff, onOnDelayEnd, onMaxHoldEnd,
        onOffDelayEnd, sendOnSignal, sendOffSignal, hm]

end TriggerFilter

/-! ## Claim theorems for the TriggerFilter -/

open TriggerFilter

/-- A sample configuration used for concrete evaluations: one-second
delays, no max hold, not muted. -/
def cfgEx : TriggerFilterCfg :=
  ⟨1, 1, 0, false, "/trigger/on", "/trigger/off"⟩

/-- A sample configuration with a positive max hold. -/
def cfgMH : TriggerFilterCfg :=
  ⟨0, 0, 1, false, "/trigger/on", "/trigger/off"⟩

/-- The state reached from the initial state by an on trigger, the
on-delay expiry and an off trigger: output active, off-delay running. -/
def stOffPending : TriggerFilterState :=
  (runFrom cfgEx TriggerFilterState.start
    [.triggerOn, .onDelayEnd, .triggerOff]).state

/-- The state reached from the initial state by one on trigger: output
inactive, on-delay timer running. -/
def stOnPending : TriggerFilterState :=
  (runFrom cfgEx TriggerFilterState.start [.triggerOn]).state

/-- C1: starting from the initial inactive state, for every configuration
and every sequence of trigger calls and timer expiries, the emitted on
and off signals strictly alternate beginning with an on signal, and the
two emission counts never differ by more than one. -/
theorem trigger_filter_on_off_alternate (cfg : TriggerFilterCfg)
    (tr : List FilterEvent) :
    altFrom false (runFrom cfg TriggerFilterState.start tr).sigs = true ∧
    (runFrom cfg TriggerFilterState.start tr).sigs.count Sig.offSignal ≤
      (runFrom cfg TriggerFilterState.start tr).sigs.count Sig.onSignal ∧
    (runFrom cfg TriggerFilterState.start tr).sigs.count Sig.onSignal ≤
      (runFrom cfg TriggerFilterState.start tr).sigs.count Sig.offSignal + 1 := by
  have h := runFrom_alt cfg tr TriggerFilterState.start start_inv
  have halt : altFrom false (runFrom cfg TriggerFilterState.start tr).sigs = true :=
    h.1
  refine ⟨halt, ?_⟩
  have hc := altFrom_count (runFrom cfg TriggerFilterState.start tr).sigs false halt
  simpa using hc

/-- C3 refutation: `triggerOn()` while the output is active is not always
a no-op (it stops a running off-delay timer), and `triggerOff()` while
the output is inactive is not always a no-op (it stops a running on-delay
timer).  Both failing states are reached by concrete event sequences from
the initial state. -/
theorem trigger_filter_idempotence_refuted :
    stOffPending.outputIsActive = true ∧
    (step cfgEx stOffPending FilterEvent.triggerOn).state ≠ stOffPending ∧
    stOnPending.outputIsActive = false ∧
    (step cfgEx stOnPending FilterEvent.triggerOff).state ≠ stOnPending := by
  decide

/-- C3 (amended): over states satisfying the reachability invariant,
`triggerOn()` is a no-op while the output is active with no off-delay
running, or while the on-delay timer is running; `triggerOff()` is a
no-op while the output is inactive with no on-delay running, or while
the off-delay timer is running; and a `triggerOn()` during a running
off-delay only stops that timer, leaving the output active with no
emission. -/
theorem trigger_filter_idempotence (cfg : TriggerFilterCfg)
    (s : TriggerFilterState) (h : Inv s) :
    (s.outputIsActive = true → s.offDelayActive = false →
      step cfg s FilterEvent.triggerOn = ⟨s, [], []⟩) ∧
    (s.onDelayActive = true →
      step cfg s FilterEvent.triggerOn = ⟨s, [], []⟩) ∧
    (s.outputIsActive = false → s.onDelayActive = false →
      step cfg s FilterEvent.triggerOff = ⟨s, [], []⟩) ∧
    (s.offDelayActive = true →
      step cfg s FilterEvent.triggerOff = ⟨s, [], []⟩) ∧
    (s.outputIsActive = true → s.offDelayActive = true →
      step cfg s FilterEvent.triggerOn =
        ⟨{ s with offDelayActive := false }, [], []⟩) := by
  obtain ⟨h1, h2, h3⟩ := h
  obtain ⟨a, o, m, f⟩ := s
  cases a <;> cases o <;> cases m <;> cases f <;>
    simp_all [step, triggerOn, triggerOff]

theorem trigger_filter_idempotence_witness :
    step cfgEx stOffPending FilterEvent.triggerOff = ⟨stOffPending, [], []⟩ ∧
    step cfgEx stOnPending FilterEvent.triggerOn = ⟨stOnPending, [], []⟩ ∧
    step cfgEx stOffPending FilterEvent.triggerOn =
      ⟨{ stOffPending with offDelayActive := false }, [], []⟩ :=
  ⟨(trigger_filter_idempotence cfgEx stOffPending (by decide)).2.2.2.1 (by decide),
   (trigger_filter_idempotence cfgEx stOnPending (by decide)).2.1 (by decide),
   (trigger_filter_idempotence cfgEx stOffPending (by decide)).2.2.2.2
     (by decide) (by decide)⟩

/-- C4: with `mute` set, no message ever reaches the OSC network manager,
while the state evolution and the `onSignalSent` / `offSignalSent`
notifications are identical to the run with `mute` cleared. -/
theorem trigger_filter_mute (cfg : TriggerFilterCfg)
    (tr : List FilterEvent) :
    (runFrom { cfg with mute := true } TriggerFilterState.start tr).wire = [] ∧
    (runFrom { cfg with mute := true } TriggerFilterState.start tr).state =
      (runFrom { cfg with mute := false } TriggerFilterState.start tr).state ∧
    (runFrom { cfg with mute := true } TriggerFilterState.start tr).sigs =
      (runFrom { cfg with mute := false } TriggerFilterState.start tr).sigs := by
  obtain ⟨hst, hsig, hwire⟩ := runFrom_mute cfg tr TriggerFilterState.start
  exact ⟨hwire, hst, hsig⟩

/-- C5: with `maxHold > 0`, entering the active state starts the max-hold
timer; a max-hold expiry while active forces the output inactive with
exactly one off signal; `triggerOn()` never stops the max-hold timer;
with `maxHold = 0` the max-hold timer never runs on any trace (so the
forced release never occurs); and after a max-hold release a fresh
`triggerOn()` followed by the on-delay expiry re-enters the active
state. -/
theorem trigger_filter_max_hold (cfg : TriggerFilterCfg) :
    (∀ s : TriggerFilterState, 0 < cfg.maxHold → s.onDelayActive = true →
      (step cfg s FilterEvent.onDelayEnd).state.outputIsActive = true ∧
      (step cfg s FilterEvent.onDelayEnd).state.maxHoldActive = true) ∧
    (∀ s : TriggerFilterState, Inv s → s.maxHoldActive = true →
      (step cfg s FilterEvent.maxHoldEnd).state.outputIsActive = false ∧
      (step cfg s FilterEvent.maxHoldEnd).sigs = [Sig.offSignal]) ∧
    (∀ s : TriggerFilterState,
      (step cfg s FilterEvent.triggerOn).state.maxHoldActive =
        s.maxHoldActive) ∧
    (¬ 0 < cfg.maxHold → ∀ tr : List FilterEvent,
      (runFrom cfg TriggerFilterState.start tr).state.maxHoldActive = false ∧
      step cfg (runFrom cfg TriggerFilterState.start tr).state
          FilterEvent.maxHoldEnd =
        ⟨(runFrom cfg TriggerFilterState.start tr).state, [], []⟩) ∧
    (∀ s : TriggerFilterState, Inv s → s.maxHoldActive = true →
      (runFrom cfg (step cfg s FilterEvent.maxHoldEnd).state
          [.triggerOn, .onDelayEnd]).state.outputIsActive = true ∧
      (runFrom cfg (step cfg s FilterEvent.maxHoldEnd).state
          [.triggerOn, .onDelayEnd]).sigs = [Sig.onSignal]) := by
  refine ⟨?_, ?_, ?_, ?_, ?_⟩
  · intro s hm ho
    obtain ⟨a, o, m, f⟩ := s
    simp_all [step, onOnDelayEnd, sendOnSignal, hm]
  · intro s h hmx
    obtain ⟨h1, h2, h3⟩ := h
    obtain ⟨a, o, m, f⟩ := s
    simp_all [step, onMaxHoldEnd, sendOffSignal]
  · intro s
    obtain ⟨a, o, m, f⟩ := s
    cases a <;> cases o <;> simp [step, triggerOn]
  · intro hm tr
    have hmx := runFrom_no_maxHold cfg hm tr TriggerFilterState.start rfl
    refine ⟨hmx, ?_⟩
    simp [step, hmx]
  · intro s h hmx
    obtain ⟨h1, h2, h3⟩ := h
    obtain ⟨a, o, m, f⟩ := s
    simp_all [step, onMaxHoldEnd, sendOffSignal, runFrom, triggerOn,
      onOnDelayEnd, sendOnSignal]

theorem trigger_filter_max_hold_witness :
    ((step cfgMH ⟨false, true, false, false⟩ FilterEvent.onDelayEnd).state.outputIsActive
        = true ∧
      (step cfgMH ⟨false, true, false, false⟩ FilterEvent.onDelayEnd).state.maxHoldActive
        = true) ∧
    ((step cfgMH ⟨true, false, true, false⟩ FilterEvent.maxHoldEnd).state.outputIsActive
        = false ∧
      (step cfgMH ⟨true, false, true, false⟩ FilterEvent.maxHoldEnd).sigs
        = [Sig.offSignal]) ∧
    ((runFrom cfgEx TriggerFilterState.start
        [.triggerOn, .onDelayEnd]).state.maxHoldActive = false) ∧
    ((runFrom cfgMH (step cfgMH ⟨true, false, true, false⟩
          FilterEvent.maxHoldEnd).state
        [.triggerOn, .onDelayEnd]).state.outputIsActive = true) :=
  ⟨(trigger_filter_max_hold cfgMH).1 ⟨false, true, false, false⟩
      (by decide) (by decide),
   (trigger_filter_max_hold cfgMH).2.1 ⟨true, false, true, false⟩
      (by decide) (by decide),
   ((trigger_filter_max_hold cfgEx).2.2.2.1 (by decide)
      [.triggerOn, .onDelayEnd]).1,
   ((trigger_filter_max_hold cfgMH).2.2.2.2 ⟨true, false, true, false⟩
      (by decide) (by decide)).1⟩

/-! ## JSON documents (QJsonValue / QJsonObject)

A `QJsonValue` is one of null/undefined, bool, double, string, array,
object.  A `QJsonObject` is modelled as an association list of key/value
pairs; lookups and in-place updates are all the claims need. -/

inductive Json where
  | null : Json
  | bool : Bool → Json
  | num : ℚ → Json
  | str : String → Json
  | arr : List Json → Json
  | obj : List (String × Json) → Json

/-- Behaviour of `QJsonValue::toBool(def)`. -/
def Json.toBool (d : Bool) : Json → Bool
  | .bool b => b
  | _ => d

/-- Behaviour of `QJsonValue::toDouble(def)`. -/
def Json.toDouble (d : ℚ) : Json → ℚ
  | .num q => q
  | _ => d

/-- Behaviour of `QJsonValue::toInt(def)`: a number is returned when it
is integral, otherwise the default. -/
def Json.toInt (d : ℤ) : Json → ℤ
  | .num q => if q.den = 1 then q.num else d
  | _ => d

/-- Behaviour of `QJsonValue::toString(def)` (named `toQString` to keep
clear of the `ToString` class). -/
def Json.toQString (d : String) : Json → String
  | .str s => s
  | _ => d

/-- Behaviour of `QJsonValue::toObject()`: non-objects give the empty
object. -/
def Json.toObject : Json → List (String × Json)
  | .obj o => o
  | _ => []

/-- Behaviour of `QJsonValue::toArray()`. -/
def Json.toArray : Json → List Json
  | .arr a => a
  | _ => []

/-- Whether the value is a bool. -/
def Json.isBool : Json → Bool
  | .bool _ => true
  | _ => false

/-- Whether the value is an integral number. -/
def Json.isInt : Json → Bool
  | .num q => q.den = 1
  | _ => false

/-- Lookup of `QJsonObject::operator[]`: a missing key yields the
null/undefined value. -/
def getKey : List (String × Json) → String → Json
  | [], _ => Json.null
  | (k1, v) :: rest, k => if k1 = k then v else getKey rest k

/-- Behaviour of `QJsonObject::contains`. -/
def hasKey : List (String × Json) → String → Bool
  | [], _ => false
  | (k1, _) :: rest, k => k1 = k || hasKey rest k

/-- Insert-or-replace of `QJsonObject::operator[]=`. -/
def setKey : List (String × Json) → String → Json → List (String × Json)
  | [], k, v => [(k, v)]
  | (k1, v1) :: rest, k, v =>
    if k1 = k then (k1, v) :: rest else (k1, v1) :: setKey rest k v

theorem getKey_setKey_same (o : List (String × Json)) (k : String) (v : Json) :
    getKey (setKey o k v) k = v := by
  induction o with
  | nil => simp [setKey, getKey]
  | cons p rest ih =>
    obtain ⟨k1, v1⟩ := p
    by_cases h : k1 = k <;> simp [setKey, getKey, h, ih]

theorem getKey_setKey_other (o : List (String × Json)) (k k9 : String)
    (v : Json) (h : k9 ≠ k) : getKey (setKey o k v) k9 = getKey o k9 := by
  have hk : k ≠ k9 := Ne.symm h
  induction o with
  | nil => simp [setKey, getKey, hk]
  | cons p rest ih =>
    obtain ⟨k1, v1⟩ := p
    by_cases h1 : k1 = k
    · subst h1
      simp [setKey, getKey, hk]
    · simp [setKey, getKey, h1, ih]

theorem hasKey_setKey_other (o : List (String × Json)) (k k9 : String)
    (v : Json) (h : k9 ≠ k) : hasKey (setKey o k v) k9 = hasKey o k9 := by
  have hk : k ≠ k9 := Ne.symm h
  induction o with
  | nil => simp [setKey, hasKey, hk]
  | cons p rest ih =>
    obtain ⟨k1, v1⟩ := p
    by_cases h1 : k1 = k
    · subst h1
      simp [setKey, hasKey, hk]
    · simp [setKey, hasKey, h1, ih]

/-! ## Engine state and its (de)serialisation (Sound2OscEngine.cpp) -/

/-- Modelled from the spec: the DSP parameters held by `ScaledSpectrum`
(the `ScaledSpectrum` implementation is not among the core sources; its
getters and setters addressed by `Sound2OscEngine::toState`/`fromState`
are plain accessors of these fields). -/
structure ScaledSpectrumParams where
  gain : ℚ
  compression : ℚ
  decibel : Bool
  agc : Bool
deriving DecidableEq, Repr

/-- Timing parameters serialised by `TriggerFilter::toState`
(TriggerFilter.cpp). -/
structure TriggerFilterParams where
  onDelay : ℚ
  offDelay : ℚ
  maxHold : ℚ
deriving DecidableEq, Repr

/-- Modelled from the spec: the OSC binding of one trigger
(`TriggerOscParameters`; its implementation is not among the core
sources, the field set follows the preset document layout used by
`PresetManager::convertLegacySettingsToJson`). -/
structure TriggerOscParams where
  onMessage : String
  offMessage : String
  levelMessage : String
  minLevelValue : ℚ
  maxLevelValue : ℚ
  labelText : String
deriving DecidableEq, Repr

/-- Modelled from the spec: the user-visible fields of one
`TriggerGenerator` (implementation not among the core sources; the field
set follows the preset document layout). -/
structure TriggerParams where
  mute : Bool
  threshold : ℚ
  midFreq : ℤ
  width : ℚ
  filter : TriggerFilterParams
  osc : TriggerOscParams
deriving DecidableEq, Repr

/-- The mutable engine configuration captured by
`Sound2OscEngine::toState`. -/
structure EngineState where
  lowSoloMode : Bool
  dsp : ScaledSpectrumParams
  bpmMin : ℤ
  bpmMute : Bool
  bpmCommands : List String
  bass : TriggerParams
  loMid : TriggerParams
  hiMid : TriggerParams
  high : TriggerParams
  envelope : TriggerParams
  silence : TriggerParams
deriving DecidableEq, Repr

/-- Modelled from the spec: `BPMOscControler::toState` serialises the
BPM OSC command list under the `commands` key. -/
def bpmOscToState (cmds : List String) : Json :=
  Json.obj [("commands", Json.arr (cmds.map Json.str))]

/-- Modelled from the spec: `BPMOscControler::fromState` restores the
command list from the `commands` array. -/
def bpmOscFromState (v : Json) : List String :=
  ((getKey v.toObject "commands").toArray).map (Json.toQString "")

/-- Embedding of `TriggerFilter::toState` (TriggerFilter.cpp). -/
def triggerFilterToState (p : TriggerFilterParams) : Json :=
  Json.obj [("onDelay", Json.num p.onDelay), ("offDelay", Json.num p.offDelay),
    ("maxHold", Json.num p.maxHold)]

/-- Embedding of `TriggerFilter::fromState` (TriggerFilter.cpp): each
field is read with default `0.0`. -/
def triggerFilterFromState (v : Json) : TriggerFilterParams :=
  ⟨(getKey v.toObject "onDelay").toDouble 0,
   (getKey v.toObject "offDelay").toDouble 0,
   (getKey v.toObject "maxHold").toDouble 0⟩

/-- Modelled from the spec: serialisation of `TriggerOscParameters`. -/
def triggerOscToState (p : TriggerOscParams) : Json :=
  Json.obj [("onMessage", Json.str p.onMessage),
    ("offMessage", Json.str p.offMessage),
    ("levelMessage", Json.str p.levelMessage),
    ("minLevelValue", Json.num p.minLevelValue),
    ("maxLevelValue", Json.num p.maxLevelValue),
    ("labelText", Json.str p.labelText)]

/-- Modelled from the spec: deserialisation of `TriggerOscParameters`. -/
def triggerOscFromState (v : Json) : TriggerOscParams :=
  ⟨(getKey v.toObject "onMessage").toQString "",
   (getKey v.toObject "offMessage").toQString "",
   (getKey v.toObject "levelMessage").toQString "",
   (getKey v.toObject "minLevelValue").toDouble 0,
   (getKey v.toObject "maxLevelValue").toDouble 0,
   (getKey v.toObject "labelText").toQString ""⟩

/-- Modelled from the spec: `TriggerGenerator::toState`. -/
def triggerToState (p : TriggerParams) : Json :=
  Json.obj [("mute", Json.bool p.mute), ("threshold", Json.num p.threshold),
    ("midFreq", Json.num (p.midFreq : ℚ)), ("width", Json.num p.width),
    ("filter", triggerFilterToState p.filter),
    ("osc", triggerOscToState p.osc)]

/-- Modelled from the spec: `TriggerGenerator::fromState`. -/
def triggerFromState (v : Json) : TriggerParams :=
  ⟨(getKey v.toObject "mute").toBool false,
   (getKey v.toObject "threshold").toDouble 0,
   (getKey v.toObject "midFreq").toInt 0,
   (getKey v.toObject "width").toDouble 0,
   triggerFilterFromState (getKey v.toObject "filter"),
   triggerOscFromState (getKey v.toObject "osc")⟩

/-- Embedding of `Sound2OscEngine::toState`: the root object holds
`lowSoloMode`, the `dsp` object, the `bpm` object (keys `min`, `mute`,
`osc`) and the `triggers` object. -/
def engineToState (e : EngineState) : List (String × Json) :=
  [("lowSoloMode", Json.bool e.lowSoloMode),
   ("dsp", Json.obj [("gain", Json.num e.dsp.gain),
      ("compression", Json.num e.dsp.compression),
      ("decibel", Json.bool e.dsp.decibel),
      ("agc", Json.bool e.dsp.agc)]),
   ("bpm", Json.obj [("min", Json.num (e.bpmMin : ℚ)),
      ("mute", Json.bool e.bpmMute),
      ("osc", bpmOscToState e.bpmCommands)]),
   ("triggers", Json.obj [("bass", triggerToState e.bass),
      ("loMid", triggerToState e.loMid),
      ("hiMid", triggerToState e.hiMid),
      ("high", triggerToState e.high),
      ("envelope", triggerToState e.envelope),
      ("silence", triggerToState e.silence)])]

/-- The `lowSoloMode` section of `Sound2OscEngine::fromState`. -/
def applyLowSolo (e : EngineState) (state : List (String × Json)) :
    EngineState :=
  if hasKey state "lowSoloMode" then
    { e with lowSoloMode := (getKey state "lowSoloMode").toBool false }
  else e

/-- The `dsp` section of `Sound2OscEngine::fromState`: when present, all
four DSP fields are set, each read with its default. -/
def applyDsp (e : EngineState) (state : List (String × Json)) :
    EngineState :=
  if hasKey state "dsp" then
    { e with dsp := ⟨(getKey (getKey state "dsp").toObject "gain").toDouble 1,
        (getKey (getKey state "dsp").toObject "compression").toDouble 1,
        (getKey (getKey state "dsp").toObject "decibel").toBool false,
        (getKey (getKey state "dsp").toObject "agc").toBool true⟩ }
  else e

/-- The `bpm` section of `Sound2OscEngine::fromState`: when present,
`min` and `mute` are set unconditionally and the OSC command list only
when the inner `osc` key exists. -/
def applyBpm (e : EngineState) (state : List (String × Json)) :
    EngineState :=
  if hasKey state "bpm" then
    let e1 := { e with
      bpmMin := (getKey (getKey state "bpm").toObject "min").toInt 75,
      bpmMute := (getKey (getKey state "bpm").toObject "mute").toBool false }
    if hasKey (getKey state "bpm").toObject "osc" then
      { e1 with bpmCommands :=
          bpmOscFromState (getKey (getKey state "bpm").toObject "osc") }
    else e1
  else e

/-- The `triggers` section of `Sound2OscEngine::fromState`: each of the
six named triggers is applied only when its key is present. -/
def applyTriggers (e : EngineState) (state : List (String × Json)) :
    EngineState :=
  if hasKey state "triggers" then
    let tr := (getKey state "triggers").toObject
    let app := fun (prior : TriggerParams) (name : String) =>
      if hasKey tr name then triggerFromState (getKey tr name) else prior
    { e with
      bass := app e.bass "bass", loMid := app e.loMid "loMid",
      hiMid := app e.hiMid "hiMid", high := app e.high "high",
      envelope := app e.envelope "envelope",
      silence := app e.silence "silence" }
  else e

/-- Embedding of `Sound2OscEngine::fromState`: the four recognised
sections are applied in source order; each is applied only when its key
is present, with per-field defaults inside a present section; the C++
method returns `void` and mutates in place, so the embedding returns the
updated state. -/
def engineFromState (e : EngineState) (state : List (String × Json)) :
    EngineState :=
  applyTriggers (applyBpm (applyDsp (applyLowSolo e state) state) state) state

/-- Modelled from the spec: `SETTINGS_FORMAT_VERSION`, the current preset
format version (its defining header is not among the sources; the spec
gives 4). -/
def SETTINGS_FORMAT_VERSION : ℤ := 4

/-- Embedding of `static constexpr int CURRENT_FORMAT_VERSION =
SETTINGS_FORMAT_VERSION` (PresetManager.cpp). -/
def CURRENT_FORMAT_VERSION : ℤ := SETTINGS_FORMAT_VERSION

/-- Embedding of the document transformation in
`PresetManager::savePresetFile`: copy the caller's state object and
overwrite the `version`, `formatVersion` and `changedAt` keys with the
manager-chosen values (application version string, current format
version, current time). -/
def savePresetFileDoc (state : List (String × Json))
    (version changedAt : String) : List (String × Json) :=
  setKey (setKey (setKey state "version" (Json.str version))
      "formatVersion" (Json.num (CURRENT_FORMAT_VERSION : ℚ)))
    "changedAt" (Json.str changedAt)

/-! ## Audio ring buffer -/

/-- Suffix of the most recent `n` elements. -/
def lastN {α : Type} (n : ℕ) (l : List α) : List α :=
  l.drop (l.length - n)

/-- Modelled from the spec: the `MonoAudioBuffer` sample ring (its
implementation file is not among the core sources).  The ring holds the
most recent `capacity` samples; slots never written yet read as zero, so
the contents are a fixed-length sample list initialised to zeros. -/
structure MonoAudioBuffer where
  capacity : ℕ
  data : List ℚ
deriving DecidableEq, Repr

/-- Modelled from the spec: a freshly constructed buffer of the given
capacity, all samples zero. -/
def MonoAudioBuffer.create (cap : ℕ) : MonoAudioBuffer :=
  ⟨cap, List.replicate cap 0⟩

/-- Modelled from the spec: `putSamples` appends the pushed block,
silently discarding the oldest samples beyond the capacity. -/
def MonoAudioBuffer.putSamples (b : MonoAudioBuffer) (s : List ℚ) :
    MonoAudioBuffer :=
  ⟨b.capacity, lastN b.capacity (b.data ++ s)⟩

/-- Modelled from the spec: retrieval of the most recent `n` samples. -/
def MonoAudioBuffer.snapshotLast (n : ℕ) (b : MonoAudioBuffer) : List ℚ :=
  lastN n b.data

/-- Embedding of the construction in
`Sound2OscEngine::initializeComponents`: `MonoAudioBuffer(4096 * 4)`. -/
def engineAudioBufferCapacity : ℕ := 4096 * 4

/-! ## Engine timers (Sound2OscEngine::connectComponents) -/

/-- Embedding of `m_fftTimer.setInterval(1000 / 44)`: C++ `int`
division, milliseconds. -/
def fftTimerIntervalMs : ℕ := 1000 / 44

/-- Embedding of `m_bpmTimer.setInterval(1000 / 44)`. -/
def bpmTimerIntervalMs : ℕ := 1000 / 44

/-- Embedding of `m_statusTimer.setInterval(5000)`. -/
def statusTimerIntervalMs : ℕ := 5000

/-! ## Round-trip lemmas for the serialisers -/

theorem mapQString_str (cmds : List String) :
    cmds.map (Json.toQString "" ∘ Json.str) = cmds := by
  induction cmds with
  | nil => rfl
  | cons c rest ih =>
    simp only [List.map_cons]
    rw [ih]
    rfl

theorem toInt_intCast (m : ℤ) : Json.toInt 0 (Json.num (m : ℚ)) = m := by
  simp [Json.toInt, Rat.den_intCast, Rat.num_intCast]

theorem toInt_intCast75 (m : ℤ) : Json.toInt 75 (Json.num (m : ℚ)) = m := by
  simp [Json.toInt, Rat.den_intCast, Rat.num_intCast]

theorem triggerFilter_round (p : TriggerFilterParams) :
    triggerFilterFromState (triggerFilterToState p) = p := by
  obtain ⟨a, b, c⟩ := p
  simp [triggerFilterToState, triggerFilterFromState, getKey, Json.toObject,
    Json.toDouble]

theorem triggerOsc_round (p : TriggerOscParams) :
    triggerOscFromState (triggerOscToState p) = p := by
  obtain ⟨a, b, c, d, f, g⟩ := p
  simp [triggerOscToState, triggerOscFromState, getKey, Json.toObject,
    Json.toDouble, Json.toQString]

theorem trigger_round (p : TriggerParams) :
    triggerFromState (triggerToState p) = p := by
  obtain ⟨m, t, mf, w, fp, op⟩ := p
  simp [triggerToState, triggerFromState, getKey, Json.toObject,
    Json.toDouble, Json.toBool, toInt_intCast, triggerFilter_round,
    triggerOsc_round]

theorem bpmOsc_round (cmds : List String) :
    bpmOscFromState (bpmOscToState cmds) = cmds := by
  simp [bpmOscToState, bpmOscFromState, getKey, Json.toObject, Json.toArray,
    mapQString_str]

/-! ## Lemmas about the most-recent-n suffix -/

theorem lastN_length {α : Type} (n : ℕ) (l : List α) :
    (lastN n l).length = min n l.length := by
  simp only [lastN, List.length_drop]
  omega

theorem lastN_lastN {α : Type} (n m : ℕ) (l : List α) (h : n ≤ m) :
    lastN n (lastN m l) = lastN n l := by
  simp only [lastN, List.drop_drop, List.length_drop]
  congr 1
  omega

theorem lastN_append_right {α : Type} (n : ℕ) (d s : List α)
    (h : n ≤ s.length) : lastN n (d ++ s) = lastN n s := by
  simp only [lastN, List.length_append, List.drop_append_eq_append_drop]
  rw [List.drop_eq_nil_of_le (by omega), List.nil_append]
  congr 1
  omega

theorem lastN_append_left {α : Type} (n : ℕ) (d s : List α)
    (h : s.length ≤ n) : lastN n (d ++ s) = lastN (n - s.length) d ++ s := by
  simp only [lastN, List.length_append, List.drop_append_eq_append_drop]
  have h0 : d.length + s.length - n - d.length = 0 := by omega
  rw [h0, List.drop_zero]
  congr 2
  omega

theorem lastN_all {α : Type} (n : ℕ) (l : List α) (h : l.length ≤ n) :
    lastN n l = l := by
  simp only [lastN]
  rw [Nat.sub_eq_zero_of_le h, List.drop_zero]

/-! ## Claim theorems for the preset document, ring buffer and timers -/

/-- A sample trigger configuration for concrete evaluations. -/
def trigEx : TriggerParams :=
  ⟨false, 1, 80, 1, ⟨0, 0, 0⟩, ⟨"/on", "/off", "/lvl", 0, 1, "L"⟩⟩

/-- A sample engine state for concrete evaluations (gain 2). -/
def engineEx : EngineState :=
  ⟨false, ⟨2, 1, false, true⟩, 75, false, ["/bpm"],
   trigEx, trigEx, trigEx, trigEx, trigEx, trigEx⟩

/-- A malformed preset document: `dsp` is present but its `gain` field is
a string. -/
def badDoc : List (String × Json) :=
  [("dsp", Json.obj [("gain", Json.str "oops")])]

/-- C2 refutation: an unknown key inserted into a loaded preset document
is no longer present after the engine applies the document and the state
is written back through the preset manager (the claim asserts it would be
preserved unchanged). -/
theorem preset_unknown_key_not_preserved :
    hasKey (setKey (engineToState engineEx) "future" (Json.num 42))
      "future" = true ∧
    hasKey (savePresetFileDoc
        (engineToState (engineFromState engineEx
          (setKey (engineToState engineEx) "future" (Json.num 42))))
        "1.0.0" "2026-01-19T00:00:00") "future" = false := by
  constructor
  · rfl
  · rfl

/-- C2 (amended): `fromState` applied to the document produced by
`toState` restores the engine state exactly; however unknown keys are not
preserved on write-back, because `toState` regenerates a document whose
only root keys are `lowSoloMode`, `dsp`, `bpm` and `triggers`. -/
theorem engine_state_round_trip (e : EngineState) :
    engineFromState e (engineToState e) = e ∧
    (∀ k : String, hasKey (engineToState e) k = true →
      k = "lowSoloMode" ∨ k = "dsp" ∨ k = "bpm" ∨ k = "triggers") := by
  constructor
  · obtain ⟨ls, ⟨g, c, db, ag⟩, bm, bmu, cmds, b1, b2, b3, b4, b5, b6⟩ := e
    simp [engineFromState, applyLowSolo, applyDsp, applyBpm, applyTriggers,
      engineToState, hasKey, getKey, Json.toObject, Json.toBool,
      Json.toDouble, bpmOsc_round, trigger_round, toInt_intCast75]
  · intro k hk
    simp only [engineToState, hasKey, Bool.or_eq_true, decide_eq_true_eq]
      at hk
    rcases hk with h | h | h | h | h
    · exact Or.inl h.symm
    · exact Or.inr (Or.inl h.symm)
    · exact Or.inr (Or.inr (Or.inl h.symm))
    · exact Or.inr (Or.inr (Or.inr h.symm))
    · cases h

theorem engine_state_round_trip_witness :
    engineFromState engineEx (engineToState engineEx) = engineEx ∧
    hasKey (engineToState engineEx) "dsp" = true ∧
    ("dsp" = "lowSoloMode" ∨ "dsp" = "dsp" ∨ "dsp" = "bpm" ∨
      "dsp" = "triggers") :=
  ⟨(engine_state_round_trip engineEx).1, by rfl,
   (engine_state_round_trip engineEx).2 "dsp" (by rfl)⟩

/-- Fields not touched by the `lowSoloMode` section. -/
theorem applyLowSolo_other (e : EngineState) (st : List (String × Json)) :
    (applyLowSolo e st).dsp = e.dsp ∧
    (applyLowSolo e st).bpmMin = e.bpmMin ∧
    (applyLowSolo e st).bpmMute = e.bpmMute ∧
    (applyLowSolo e st).bpmCommands = e.bpmCommands ∧
    (applyLowSolo e st).bass = e.bass ∧
    (applyLowSolo e st).silence = e.silence := by
  unfold applyLowSolo
  split <;> exact ⟨rfl, rfl, rfl, rfl, rfl, rfl⟩

/-- Fields not touched by the `dsp` section. -/
theorem applyDsp_other (e : EngineState) (st : List (String × Json)) :
    (applyDsp e st).lowSoloMode = e.lowSoloMode ∧
    (applyDsp e st).bpmMin = e.bpmMin ∧
    (applyDsp e st).bpmMute = e.bpmMute ∧
    (applyDsp e st).bpmCommands = e.bpmCommands ∧
    (applyDsp e st).bass = e.bass ∧
    (applyDsp e st).silence = e.silence := by
  unfold applyDsp
  split <;> exact ⟨rfl, rfl, rfl, rfl, rfl, rfl⟩

/-- Fields not touched by the `bpm` section. -/
theorem applyBpm_other (e : EngineState) (st : List (String × Json)) :
    (applyBpm e st).lowSoloMode = e.lowSoloMode ∧
    (applyBpm e st).dsp = e.dsp ∧
    (applyBpm e st).bass = e.bass ∧
    (applyBpm e st).silence = e.silence := by
  unfold applyBpm
  split
  · split <;> exact ⟨rfl, rfl, rfl, rfl⟩
  · exact ⟨rfl, rfl, rfl, rfl⟩

/-- Fields not touched by the `triggers` section. -/
theorem applyTriggers_other (e : EngineState) (st : List (String × Json)) :
    (applyTriggers e st).lowSoloMode = e.lowSoloMode ∧
    (applyTriggers e st).dsp = e.dsp ∧
    (applyTriggers e st).bpmMin = e.bpmMin ∧
    (applyTriggers e st).bpmMute = e.bpmMute ∧
    (applyTriggers e st).bpmCommands = e.bpmCommands := by
  unfold applyTriggers
  split <;> exact ⟨rfl, rfl, rfl, rfl, rfl⟩

/-- An absent `triggers` key leaves the whole state unchanged. -/
theorem applyTriggers_absent (e : EngineState) (st : List (String × Json))
    (h : hasKey st "triggers" = false) : applyTriggers e st = e := by
  simp [applyTriggers, h]

/-- Projection of `engineFromState` onto the `lowSoloMode` field. -/
theorem engineFromState_lowSolo (e : EngineState)
    (d : List (String × Json)) :
    (engineFromState e d).lowSoloMode =
      if hasKey d "lowSoloMode" then (getKey d "lowSoloMode").toBool false
      else e.lowSoloMode := by
  unfold engineFromState
  rw [(applyTriggers_other _ _).1, (applyBpm_other _ _).1,
    (applyDsp_other _ _).1]
  unfold applyLowSolo
  split <;> simp_all

/-- Projection of `engineFromState` onto the `dsp` section. -/
theorem engineFromState_dsp (e : EngineState) (d : List (String × Json)) :
    (engineFromState e d).dsp =
      if hasKey d "dsp" then
        ⟨(getKey (getKey d "dsp").toObject "gain").toDouble 1,
         (getKey (getKey d "dsp").toObject "compression").toDouble 1,
         (getKey (getKey d "dsp").toObject "decibel").toBool false,
         (getKey (getKey d "dsp").toObject "agc").toBool true⟩
      else e.dsp := by
  unfold engineFromState
  rw [(applyTriggers_other _ _).2.1, (applyBpm_other _ _).2.1]
  unfold applyDsp
  split <;> simp_all [(applyLowSolo_other e d).1]

/-- Projection of `engineFromState` onto the BPM fields. -/
theorem engineFromState_bpm (e : EngineState) (d : List (String × Json)) :
    (engineFromState e d).bpmMin =
      (if hasKey d "bpm" then (getKey (getKey d "bpm").toObject "min").toInt 75
       else e.bpmMin) ∧
    (engineFromState e d).bpmMute =
      (if hasKey d "bpm" then
        (getKey (getKey d "bpm").toObject "mute").toBool false
       else e.bpmMute) ∧
    (engineFromState e d).bpmCommands =
      (if hasKey d "bpm" then
        (if hasKey (getKey d "bpm").toObject "osc" then
          bpmOscFromState (getKey (getKey d "bpm").toObject "osc")
         else e.bpmCommands)
       else e.bpmCommands) := by
  unfold engineFromState
  rw [(applyTriggers_other _ _).2.2.1, (applyTriggers_other _ _).2.2.2.1,
    (applyTriggers_other _ _).2.2.2.2]
  unfold applyBpm
  split
  · split <;>
      simp_all [(applyDsp_other (applyLowSolo e d) d).2.1,
        (applyDsp_other (applyLowSolo e d) d).2.2.1,
        (applyDsp_other (applyLowSolo e d) d).2.2.2.1,
        (applyLowSolo_other e d).2.1, (applyLowSolo_other e d).2.2.1,
        (applyLowSolo_other e d).2.2.2.1]
  · simp_all [(applyDsp_other (applyLowSolo e d) d).2.1,
      (applyDsp_other (applyLowSolo e d) d).2.2.1,
      (applyDsp_other (applyLowSolo e d) d).2.2.2.1,
      (applyLowSolo_other e d).2.1, (applyLowSolo_other e d).2.2.1,
      (applyLowSolo_other e d).2.2.2.1]

/-- Projection of `engineFromState` onto the trigger slots when the
`triggers` key is absent. -/
theorem engineFromState_triggers_absent (e : EngineState)
    (d : List (String × Json)) (h : hasKey d "triggers" = false) :
    (engineFromState e d).bass = e.bass ∧
    (engineFromState e d).silence = e.silence := by
  unfold engineFromState
  rw [applyTriggers_absent _ _ h]
  constructor
  · rw [(applyBpm_other _ _).2.2.1, (applyDsp_other _ _).2.2.2.2.1,
      (applyLowSolo_other _ _).2.2.2.2.1]
  · rw [(applyBpm_other _ _).2.2.2, (applyDsp_other _ _).2.2.2.2.2,
      (applyLowSolo_other _ _).2.2.2.2.2]

/-- C8 refutation: applying a malformed preset document (string where the
`dsp.gain` number belongs) silently changes the prior gain 2 to the
default 1 and leaves every other section untouched: the prior state is
neither kept nor fully replaced, and no failure is reported (`fromState`
returns `void`). -/
theorem from_state_not_atomic :
    (engineFromState engineEx badDoc).dsp.gain = 1 ∧
    engineEx.dsp.gain = 2 ∧
    engineFromState engineEx badDoc ≠ engineEx := by
  refine ⟨rfl, rfl, ?_⟩
  intro h
  have hg : (engineFromState engineEx badDoc).dsp.gain = engineEx.dsp.gain := by
    rw [h]
  rw [show (engineFromState engineEx badDoc).dsp.gain = 1 from rfl] at hg
  rw [show engineEx.dsp.gain = 2 from rfl] at hg
  norm_num at hg

/-- C8 (amended): `fromState` is section-wise, not atomic: a top-level
section absent from the document leaves the corresponding prior fields
unchanged, while a present `dsp` section is applied unconditionally with
per-field defaults for missing or mistyped values; no failure indication
exists. -/
theorem from_state_sections (e : EngineState) (d : List (String × Json)) :
    (hasKey d "lowSoloMode" = false →
      (engineFromState e d).lowSoloMode = e.lowSoloMode) ∧
    (hasKey d "dsp" = false → (engineFromState e d).dsp = e.dsp) ∧
    (hasKey d "bpm" = false →
      (engineFromState e d).bpmMin = e.bpmMin ∧
      (engineFromState e d).bpmMute = e.bpmMute ∧
      (engineFromState e d).bpmCommands = e.bpmCommands) ∧
    (hasKey d "triggers" = false →
      (engineFromState e d).bass = e.bass ∧
      (engineFromState e d).silence = e.silence) ∧
    (hasKey d "dsp" = true →
      (engineFromState e d).dsp =
        ⟨(getKey (getKey d "dsp").toObject "gain").toDouble 1,
         (getKey (getKey d "dsp").toObject "compression").toDouble 1,
         (getKey (getKey d "dsp").toObject "decibel").toBool false,
         (getKey (getKey d "dsp").toObject "agc").toBool true⟩) := by
  refine ⟨?_, ?_, ?_, ?_, ?_⟩
  · intro h
    rw [engineFromState_lowSolo, h]
    simp
  · intro h
    rw [engineFromState_dsp, h]
    simp
  · intro h
    obtain ⟨h1, h2, h3⟩ := engineFromState_bpm e d
    rw [h1, h2, h3, h]
    simp
  · intro h
    exact engineFromState_triggers_absent e d h
  · intro h
    rw [engineFromState_dsp, h]
    simp

theorem from_state_sections_witness :
    (engineFromState engineEx badDoc).lowSoloMode = engineEx.lowSoloMode ∧
    (engineFromState engineEx badDoc).dsp =
      ⟨(getKey (getKey badDoc "dsp").toObject "gain").toDouble 1,
       (getKey (getKey badDoc "dsp").toObject "compression").toDouble 1,
       (getKey (getKey badDoc "dsp").toObject "decibel").toBool false,
       (getKey (getKey badDoc "dsp").toObject "agc").toBool true⟩ ∧
    (engineFromState engineEx badDoc).bass = engineEx.bass :=
  ⟨(from_state_sections engineEx badDoc).1 (by rfl),
   (from_state_sections engineEx badDoc).2.2.2.2 (by rfl),
   ((from_state_sections engineEx badDoc).2.2.2.1 (by rfl)).1⟩

/-- C7 refutation: the `bpm` object written by `Sound2OscEngine::toState`
has no `max` key (only `min`, `mute` and `osc` are written). -/
theorem preset_bpm_max_missing :
    hasKey ((getKey (engineToState engineEx) "bpm").toObject) "max"
      = false := by
  rfl

/-- C7 (amended): the root of the document produced by `toState` holds a
boolean `lowSoloMode`, a `dsp` object with `gain`, `compression`,
`decibel` and `agc`, a `bpm` object with `min`, `mute` and `osc`
(containing `commands`) but no `max` key, and a `triggers` object with
the six trigger names; the wire form written by the preset manager
carries an integer `formatVersion`. -/
theorem preset_document_shape (e : EngineState) :
    (getKey (engineToState e) "lowSoloMode").isBool = true ∧
    (hasKey ((getKey (engineToState e) "dsp").toObject) "gain" = true ∧
     hasKey ((getKey (engineToState e) "dsp").toObject) "compression" = true ∧
     hasKey ((getKey (engineToState e) "dsp").toObject) "decibel" = true ∧
     hasKey ((getKey (engineToState e) "dsp").toObject) "agc" = true) ∧
    (hasKey ((getKey (engineToState e) "bpm").toObject) "min" = true ∧
     hasKey ((getKey (engineToState e) "bpm").toObject) "mute" = true ∧
     hasKey ((getKey (engineToState e) "bpm").toObject) "osc" = true ∧
     hasKey ((getKey (engineToState e) "bpm").toObject) "max" = false ∧
     hasKey ((getKey ((getKey (engineToState e) "bpm").toObject)
        "osc").toObject) "commands" = true) ∧
    (hasKey ((getKey (engineToState e) "triggers").toObject) "bass" = true ∧
     hasKey ((getKey (engineToState e) "triggers").toObject) "loMid" = true ∧
     hasKey ((getKey (engineToState e) "triggers").toObject) "hiMid" = true ∧
     hasKey ((getKey (engineToState e) "triggers").toObject) "high" = true ∧
     hasKey ((getKey (engineToState e) "triggers").toObject) "envelope" = true ∧
     hasKey ((getKey (engineToState e) "triggers").toObject) "silence" = true) ∧
    (∀ (st : List (String × Json)) (ver ts : String),
      (getKey (savePresetFileDoc st ver ts) "formatVersion").isInt = true) := by
  refine ⟨rfl, ⟨rfl, rfl, rfl, rfl⟩, ⟨rfl, rfl, rfl, rfl, rfl⟩,
    ⟨rfl, rfl, rfl, rfl, rfl, rfl⟩, ?_⟩
  intro st ver ts
  have h1 : getKey (savePresetFileDoc st ver ts) "formatVersion" =
      Json.num (CURRENT_FORMAT_VERSION : ℚ) := by
    unfold savePresetFileDoc
    rw [getKey_setKey_other _ _ _ _ (by decide), getKey_setKey_same]
  rw [h1]
  simp [Json.isInt, CURRENT_FORMAT_VERSION, SETTINGS_FORMAT_VERSION]

/-- C10: `savePresetFile` writes the caller's state with exactly the
three metadata keys `version`, `formatVersion` and `changedAt`
overwritten by manager-chosen values; every other key keeps its
caller-supplied value, and caller-supplied values under the three
metadata keys are never preserved. -/
theorem save_preset_file_frame (state : List (String × Json))
    (version changedAt : String) (k : String)
    (h1 : k ≠ "version") (h2 : k ≠ "formatVersion") (h3 : k ≠ "changedAt") :
    getKey (savePresetFileDoc state version changedAt) k = getKey state k ∧
    hasKey (savePresetFileDoc state version changedAt) k = hasKey state k ∧
    getKey (savePresetFileDoc state version changedAt) "version" =
      Json.str version ∧
    getKey (savePresetFileDoc state version changedAt) "formatVersion" =
      Json.num (CURRENT_FORMAT_VERSION : ℚ) ∧
    getKey (savePresetFileDoc state version changedAt) "changedAt" =
      Json.str changedAt := by
  unfold savePresetFileDoc
  refine ⟨?_, ?_, ?_, ?_, ?_⟩
  · rw [getKey_setKey_other _ _ _ _ h3, getKey_setKey_other _ _ _ _ h2,
      getKey_setKey_other _ _ _ _ h1]
  · rw [hasKey_setKey_other _ _ _ _ h3, hasKey_setKey_other _ _ _ _ h2,
      hasKey_setKey_other _ _ _ _ h1]
  · rw [getKey_setKey_other _ _ _ _ (by decide),
      getKey_setKey_other _ _ _ _ (by decide), getKey_setKey_same]
  · rw [getKey_setKey_other _ _ _ _ (by decide), getKey_setKey_same]
  · rw [getKey_setKey_same]

theorem save_preset_file_frame_witness :
    getKey (savePresetFileDoc
        [("lowSoloMode", Json.bool true), ("version", Json.str "caller")]
        "1.0.0" "2026-01-19") "lowSoloMode" =
      getKey [("lowSoloMode", Json.bool true), ("version", Json.str "caller")]
        "lowSoloMode" ∧
    hasKey (savePresetFileDoc
        [("lowSoloMode", Json.bool true), ("version", Json.str "caller")]
        "1.0.0" "2026-01-19") "lowSoloMode" =
      hasKey [("lowSoloMode", Json.bool true), ("version", Json.str "caller")]
        "lowSoloMode" ∧
    getKey (savePresetFileDoc
        [("lowSoloMode", Json.bool true), ("version", Json.str "caller")]
        "1.0.0" "2026-01-19") "version" = Json.str "1.0.0" ∧
    getKey (savePresetFileDoc
        [("lowSoloMode", Json.bool true), ("version", Json.str "caller")]
        "1.0.0" "2026-01-19") "formatVersion" =
      Json.num (CURRENT_FORMAT_VERSION : ℚ) ∧
    getKey (savePresetFileDoc
        [("lowSoloMode", Json.bool true), ("version", Json.str "caller")]
        "1.0.0" "2026-01-19") "changedAt" = Json.str "2026-01-19" :=
  save_preset_file_frame
    [("lowSoloMode", Json.bool true), ("version", Json.str "caller")]
    "1.0.0" "2026-01-19" "lowSoloMode" (by decide) (by decide) (by decide)

/-- C6: the engine constructs its audio buffer with capacity
4096 × 4 = 16384 samples; pushing a block keeps the buffer length at its
capacity, a snapshot of the most recent `n ≤ capacity` samples has length
exactly `n`, and it ends with the last `min n |s|` samples of the pushed
block `s`. -/
theorem ring_buffer_snapshot (b : MonoAudioBuffer) (s : List ℚ) (n : ℕ)
    (hn : n ≤ b.capacity) (hlen : b.data.length = b.capacity) :
    engineAudioBufferCapacity = 16384 ∧
    (b.putSamples s).data.length = b.capacity ∧
    ((b.putSamples s).snapshotLast n).length = n ∧
    List.IsSuffix (lastN (min n s.length) s)
      ((b.putSamples s).snapshotLast n) := by
  have hsnap : (b.putSamples s).snapshotLast n = lastN n (b.data ++ s) := by
    simp only [MonoAudioBuffer.putSamples, MonoAudioBuffer.snapshotLast]
    exact lastN_lastN n b.capacity (b.data ++ s) hn
  refine ⟨by norm_num [engineAudioBufferCapacity], ?_, ?_, ?_⟩
  · simp only [MonoAudioBuffer.putSamples]
    rw [lastN_length]
    simp only [List.length_append, hlen]
    omega
  · rw [hsnap, lastN_length]
    simp only [List.length_append, hlen]
    omega
  · rw [hsnap]
    rcases le_or_lt n s.length with h | h
    · rw [lastN_append_right n b.data s h, Nat.min_eq_left h]
    · have hs : s.length ≤ n := Nat.le_of_lt h
      rw [lastN_append_left n b.data s hs, Nat.min_eq_right hs,
        lastN_all s.length s (Nat.le_refl _)]
      exact ⟨lastN (n - s.length) b.data, rfl⟩

theorem ring_buffer_snapshot_witness :
    2 ≤ (MonoAudioBuffer.create 4).capacity ∧
    (MonoAudioBuffer.create 4).data.length =
      (MonoAudioBuffer.create 4).capacity ∧
    (engineAudioBufferCapacity = 16384 ∧
     ((MonoAudioBuffer.create 4).putSamples [1, 2, 3]).data.length =
       (MonoAudioBuffer.create 4).capacity ∧
     (((MonoAudioBuffer.create 4).putSamples [1, 2, 3]).snapshotLast
        2).length = 2 ∧
     List.IsSuffix (lastN (min 2 ([1, 2, 3] : List ℚ).length) [1, 2, 3])
       (((MonoAudioBuffer.create 4).putSamples [1, 2, 3]).snapshotLast 2)) :=
  ⟨by decide, by decide,
   ring_buffer_snapshot (MonoAudioBuffer.create 4) [1, 2, 3] 2
     (by decide) (by decide)⟩

/-- C9 refutation: `1000 / 44` in C++ integer arithmetic is 22 ms, not
the 23 ms nominal period the claim states. -/
theorem engine_tick_interval_not_23 :
    fftTimerIntervalMs = 22 ∧ bpmTimerIntervalMs = 22 ∧
    fftTimerIntervalMs ≠ 23 := by
  decide

/-- C9 (amended): the FFT and BPM processing timers share one interval,
`1000 / 44` ms in integer arithmetic, which is 22 ms; the remaining
status timer fires every 5000 ms. -/
theorem engine_tick_intervals_equal :
    fftTimerIntervalMs = bpmTimerIntervalMs ∧
    fftTimerIntervalMs = 1000 / 44 ∧
    fftTimerIntervalMs = 22 ∧
    statusTimerIntervalMs = 5000 := by
  decide

end Sound2Osc
